import Mathlib

/-!
Verification development for the timezone-overlap-finder core
(OverlapCalculator, MeetingSuggester, TimeZoneConverter).

Modelling conventions:
* Absolute instants and all durations are whole minutes (`Int`, minutes since
  the epoch, UTC).  Every value the engine produces is minute-aligned, so the
  millisecond precision of the source changes nothing observable.
* A time zone is a name together with an instant-dependent UTC offset in
  minutes (this captures DST: the offset is a function of the instant), plus a
  `recognized` flag modelling whether the zoneinfo database knows the name.
  An absent / non-string timezone field is modelled as `none`.
* JavaScript numbers for working hours are modelled as rationals `ℚ`.
* A thrown exception is modelled as `Except.error msg` carrying the message.
* `DateTime` values in the model are always valid; the library's invalid
  states arise only from unrecognized zones, which the model represents with
  the `recognized` flag and `Option` at the call sites that can see them.
-/

/-- A civil time zone: identifier plus UTC-offset rule (minutes east of UTC,
as a function of the absolute instant, which is how DST is applied), and a
flag for whether the zone database recognizes the identifier. -/
structure Zone where
  id : String
  recognized : Bool
  offset : Int → Int

/-- The UTC zone. -/
def utcZone : Zone := ⟨"UTC", true, fun _ => 0⟩

/-- A luxon `DateTime`: an absolute instant (minutes since epoch, UTC)
rendered in a zone.  The wall-clock fields are derived, not stored. -/
structure DateTime where
  ts : Int
  zone : Zone

namespace DateTime

/-- Civil ("local") minutes since the epoch in the carried zone:
instant plus the zone's offset at that instant. -/
def localTS (d : DateTime) : Int := d.ts + d.zone.offset d.ts

/-- The offset of the carried zone at this instant (luxon's `this.o`). -/
def o (d : DateTime) : Int := d.zone.offset d.ts

end DateTime

/-- luxon's `fixOffset`: given a desired civil time `localTS`, an initial
offset guess `o` and a zone offset rule, find the absolute instant whose
civil rendering is `localTS` (two correction steps; for a civil time inside a
DST gap, take the larger offset). Returns (instant, offset). -/
def fixOffset (localTS o : Int) (offs : Int → Int) : Int × Int :=
  let utcGuess := localTS - o
  let o2 := offs utcGuess
  if o = o2 then (utcGuess, o)
  else
    let utcGuess2 := utcGuess - (o2 - o)
    let o3 := offs utcGuess2
    if o2 = o3 then (utcGuess2, o2)
    else (localTS - min o2 o3, max o2 o3)

/-- JavaScript `ToIntegerOrInfinity` on a finite number: truncation toward
zero (applied by `Date.UTC` to each calendar field). -/
def jsTrunc (q : ℚ) : Int := if 0 ≤ q then ⌊q⌋ else ⌈q⌉

namespace DateTime

/-- luxon `setZone(zone)` (without `keepLocalTime`): same instant, new zone. -/
def setZone (d : DateTime) (z : Zone) : DateTime := ⟨d.ts, z⟩

/-- luxon `setZone(zone, { keepLocalTime: true })`: if the zone is unchanged
return `this`; otherwise reinterpret the current wall-clock fields in the new
zone (initial offset guess: the new zone's offset at the current instant). -/
def setZoneKeepLocal (d : DateTime) (z : Zone) : DateTime :=
  if z.id = d.zone.id then d
  else ⟨(fixOffset d.localTS (z.offset d.ts) z.offset).1, z⟩

/-- luxon `toUTC()`. -/
def toUTC (d : DateTime) : DateTime := d.setZone utcZone

/-- luxon `startOf('day')`: midnight of the current civil day in the carried
zone (fields resolved back to an instant through `fixOffset`, with the
current offset as guess).  The civil day is floor division of the civil
minutes by 1440; the divisor is positive, so Euclidean division is floor
division. -/
def startOfDay (d : DateTime) : DateTime :=
  ⟨(fixOffset (1440 * (d.localTS.ediv 1440)) d.o d.zone.offset).1, d.zone⟩

/-- luxon `set({ hour: h, minute: 0, second: 0, millisecond: 0 })`: keep the
civil day, set the time of day to `h` hours (`Date.UTC` truncates the field
to an integer), and resolve back to an instant through `fixOffset`. -/
def setHour (d : DateTime) (h : ℚ) : DateTime :=
  ⟨(fixOffset (1440 * (d.localTS.ediv 1440) + 60 * jsTrunc h) d.o d.zone.offset).1, d.zone⟩

/-- luxon `plus({ days: n })`: calendar addition — keep the civil fields,
advance the civil day, resolve back through `fixOffset`. -/
def plusDays (d : DateTime) (n : Int) : DateTime :=
  ⟨(fixOffset (d.localTS + 1440 * n) d.o d.zone.offset).1, d.zone⟩

/-- luxon `plus({ minutes: n })`: exact addition on the absolute timeline. -/
def plusMinutes (d : DateTime) (n : Int) : DateTime := ⟨d.ts + n, d.zone⟩

/-- Wall-clock hour in the carried zone. -/
def hour (d : DateTime) : Int := (d.localTS.emod 1440).ediv 60

/-- Wall-clock minute in the carried zone. -/
def minute (d : DateTime) : Int := (d.localTS.emod 1440).emod 60

end DateTime

/-- `City` from `types/index.ts` (`coordinates` is unused by the core).
The `timezone` string is modelled together with its zoneinfo meaning;
`none` models an absent or empty identifier. -/
structure City where
  name : String
  country : String
  timezone : Option Zone

/-- `WorkingHours` from `types/index.ts`: two JavaScript numbers. -/
structure WorkingHours where
  start : ℚ
  «end» : ℚ

/-- `TimeRange`: a pair of `DateTime`s. -/
structure TimeRange where
  start : DateTime
  «end» : DateTime

/-- `OverlapResult` from `types/index.ts`: `hasOverlap` plus optional fields. -/
structure OverlapResult where
  hasOverlap : Bool
  overlapInUTC : Option TimeRange
  overlapInCityA : Option TimeRange
  overlapInCityB : Option TimeRange
  durationMinutes : Option Int

/-- `TimeZoneConverter.isValidTimezone`: false for an absent/empty identifier,
otherwise whether the zone database recognizes it. -/
def isValidTimezone (timezone : Option Zone) : Bool :=
  match timezone with
  | none => false
  | some z => decide (z.id ≠ "") && z.recognized

/-- `TimeZoneConverter.convertToUTC`: reject invalid zones, then reinterpret
the wall-clock fields in the zone (`setZone` with `keepLocalTime`) and render
in UTC.  The source's invalid-`DateTime` check never fires in the model. -/
def convertToUTC (time : DateTime) (timezone : Option Zone) : Except String DateTime :=
  match timezone with
  | none => Except.error "Invalid timezone identifier: undefined"
  | some z =>
    if !(isValidTimezone (some z)) then
      Except.error ("Invalid timezone identifier: " ++ z.id)
    else
      Except.ok ((time.setZoneKeepLocal z).toUTC)

/-- `TimeZoneConverter.convertFromUTC`: reject invalid zones, then render the
instant in the target zone (instant-preserving). -/
def convertFromUTC (time : DateTime) (timezone : Option Zone) : Except String DateTime :=
  match timezone with
  | none => Except.error "Invalid timezone identifier: undefined"
  | some z =>
    if !(isValidTimezone (some z)) then
      Except.error ("Invalid timezone identifier: " ++ z.id)
    else
      Except.ok ((time.toUTC).setZone z)

/-- `OverlapCalculator.isValidWorkingHours`: both bounds are numbers with
`0 ≤ start < 24`, `0 ≤ end ≤ 24`, and `start ≠ end`.  (The source's
truthiness and `typeof` checks always pass for `ℚ` inputs.) -/
def isValidWorkingHours (hours : WorkingHours) : Bool :=
  decide (0 ≤ hours.start) && decide (hours.start < 24) &&
  decide (0 ≤ hours.«end») && decide (hours.«end» ≤ 24) &&
  decide (hours.start ≠ hours.«end»)

/-- `OverlapCalculator.workingHoursToUTC`: anchor at the date's midnight in
the given zone, set the start/end hours, push the end one civil day later
when `end ≤ start` (midnight-spanning), and convert both to UTC.
`date` is the absolute instant of the input JS `Date`. -/
def workingHoursToUTC (workingHours : WorkingHours) (timezone : Option Zone)
    (date : Int) : Except String TimeRange :=
  match timezone with
  | none => Except.error "Invalid timezone identifier: undefined"
  | some z => do
    let baseDate := (DateTime.mk date z).startOfDay
    let start := baseDate.setHour workingHours.start
    let end0 := baseDate.setHour workingHours.«end»
    let end1 := if workingHours.«end» ≤ workingHours.start then end0.plusDays 1 else end0
    let startUTC ← convertToUTC start (some z)
    let endUTC ← convertToUTC end1 (some z)
    pure ⟨startUTC, endUTC⟩

/-- `OverlapCalculator.calculateIntersection`: later start, earlier end;
`none` when `start ≥ end`. -/
def calculateIntersection (rangeA rangeB : TimeRange) : Option TimeRange :=
  let intersectionStart := if rangeA.start.ts > rangeB.start.ts then rangeA.start else rangeB.start
  let intersectionEnd := if rangeA.«end».ts < rangeB.«end».ts then rangeA.«end» else rangeB.«end»
  if intersectionStart.ts ≥ intersectionEnd.ts then none
  else some ⟨intersectionStart, intersectionEnd⟩

/-- The body of the `try` block of `calculateOverlap`.  `convFault` models an
unexpected exception thrown by the underlying date library during the
conversion phase (`none` in normal operation). -/
def overlapTryBlock (cityA cityB : City) (workingHoursA workingHoursB : WorkingHours)
    (date : Int) (convFault : Option String) : Except String OverlapResult :=
  match convFault with
  | some msg => Except.error msg
  | none => do
    let rangeA ← workingHoursToUTC workingHoursA cityA.timezone date
    let rangeB ← workingHoursToUTC workingHoursB cityB.timezone date
    match calculateIntersection rangeA rangeB with
    | none => pure ⟨false, none, none, none, none⟩
    | some intersection => do
      let aStart ← convertFromUTC intersection.start cityA.timezone
      let aEnd ← convertFromUTC intersection.«end» cityA.timezone
      let bStart ← convertFromUTC intersection.start cityB.timezone
      let bEnd ← convertFromUTC intersection.«end» cityB.timezone
      let durationMinutes := intersection.«end».ts - intersection.start.ts
      pure ⟨true, some intersection, some ⟨aStart, aEnd⟩, some ⟨bStart, bEnd⟩,
            some durationMinutes⟩

/-- The generic message of the `catch` block of `calculateOverlap`. -/
def calcFailedMsg : String :=
  "Failed to calculate overlap. Please check your inputs and try again."

/-- Does the character list start with the given pattern. -/
def listStartsWith : List Char → List Char → Bool
  | _, [] => true
  | [], _ :: _ => false
  | c :: cs, d :: ds => (c == d) && listStartsWith cs ds

/-- Does the character list contain the pattern as a contiguous sublist. -/
def listHasSub : List Char → List Char → Bool
  | [], sub => listStartsWith [] sub
  | c :: cs, sub => listStartsWith (c :: cs) sub || listHasSub cs sub

/-- JavaScript `String.includes` (case-sensitive substring test). -/
def jsIncludes (s sub : String) : Bool := listHasSub s.data sub.data

/-- A city's timezone field is falsy: absent or the empty string. -/
def tzMissing : Option Zone → Bool
  | none => true
  | some z => z.id == ""

/-- `OverlapCalculator.calculateOverlap`: validate cities, zones and working
hours in order (failing fast, before any conversion), then run the
conversion/intersection phase; any error thrown there is rethrown verbatim
if its message contains `"timezone"` and otherwise replaced by the generic
calculation-failed error. -/
def calculateOverlap (cityA cityB : City) (workingHoursA workingHoursB : WorkingHours)
    (date : Int) (convFault : Option String) : Except String OverlapResult :=
  if tzMissing cityA.timezone then
    Except.error "Invalid city A: Missing timezone information"
  else if tzMissing cityB.timezone then
    Except.error "Invalid city B: Missing timezone information"
  else if !(isValidTimezone cityA.timezone) then
    Except.error ("Unable to determine timezone for " ++ cityA.name ++ ". Please try another city.")
  else if !(isValidTimezone cityB.timezone) then
    Except.error ("Unable to determine timezone for " ++ cityB.name ++ ". Please try another city.")
  else if !(isValidWorkingHours workingHoursA) then
    Except.error "Invalid working hours for City A"
  else if !(isValidWorkingHours workingHoursB) then
    Except.error "Invalid working hours for City B"
  else
    match overlapTryBlock cityA cityB workingHoursA workingHoursB date convFault with
    | Except.error e =>
      Except.error (if jsIncludes e "timezone" then e else calcFailedMsg)
    | Except.ok r => Except.ok r

/-- `MeetingQuality` from `types/index.ts`. -/
inductive MeetingQuality where
  | perfectTime
  | acceptableTime
  | notRecommended
deriving DecidableEq, Repr

/-- `MeetingSuggestion` from `types/index.ts`. -/
structure MeetingSuggestion where
  timeInCityA : DateTime
  timeInCityB : DateTime
  quality : MeetingQuality
  durationMinutes : Int

/-- `MeetingSuggester.categorizeMeetingTime`: render the instant in the
zone's wall clock, compute the minutes-of-day, then position the instant in
the same-day working-hours window.  An unresolvable zone makes every local
field NaN in the source; every NaN comparison is false, so the guard falls
through and the fractional-position test fails, yielding `Acceptable Time`. -/
def categorizeMeetingTime (time : DateTime) (workingHours : WorkingHours)
    (timezone : Option Zone) : MeetingQuality :=
  match timezone with
  | none => MeetingQuality.acceptableTime
  | some z =>
    if !z.recognized then MeetingQuality.acceptableTime
    else
      let localTime := time.setZone z
      let timeInMinutes : ℚ := localTime.hour * 60 + localTime.minute
      let startMinutes := workingHours.start * 60
      let endMinutes := workingHours.«end» * 60
      let totalMinutes := endMinutes - startMinutes
      if timeInMinutes < startMinutes ∨ timeInMinutes ≥ endMinutes then
        MeetingQuality.notRecommended
      else
        let positionInDay := (timeInMinutes - startMinutes) / totalMinutes
        if positionInDay ≥ 1/3 ∧ positionInDay < 2/3 then
          MeetingQuality.perfectTime
        else
          MeetingQuality.acceptableTime

/-- `MeetingSuggester.combineQualities`: index both qualities in the order
list and return the entry at the larger index (the worse quality).  The
index is always in range; `getD` supplies the value Lean requires for the
out-of-range case. -/
def combineQualities (qualityA qualityB : MeetingQuality) : MeetingQuality :=
  let qualityOrder : List MeetingQuality :=
    [MeetingQuality.perfectTime, MeetingQuality.acceptableTime, MeetingQuality.notRecommended]
  let indexA := qualityOrder.indexOf qualityA
  let indexB := qualityOrder.indexOf qualityB
  qualityOrder.getD (max indexA indexB) MeetingQuality.notRecommended

/-- The `while` loop of `MeetingSuggester.generateSuggestions`: one
suggestion per 30-minute step while `currentTimeA` is before the local-A end
of the overlap, both sides advanced in lockstep. -/
def suggestFrom (cityA cityB : City) (workingHoursA workingHoursB : WorkingHours)
    (endA : DateTime) (currentTimeA currentTimeB : DateTime) : List MeetingSuggestion :=
  if _h : currentTimeA.ts < endA.ts then
    let qualityA := categorizeMeetingTime currentTimeA workingHoursA cityA.timezone
    let qualityB := categorizeMeetingTime currentTimeB workingHoursB cityB.timezone
    let quality := combineQualities qualityA qualityB
    let remainingDuration := endA.ts - currentTimeA.ts
    let durationMinutes := min remainingDuration 60
    ⟨currentTimeA, currentTimeB, quality, durationMinutes⟩ ::
      suggestFrom cityA cityB workingHoursA workingHoursB endA
        (currentTimeA.plusMinutes 30) (currentTimeB.plusMinutes 30)
  else
    []
termination_by (endA.ts - currentTimeA.ts).toNat
decreasing_by
  simp only [DateTime.plusMinutes]
  omega

/-- `MeetingSuggester.generateSuggestions`: empty unless the overlap holds
and both local windows are populated; otherwise walk the local-A window in
30-minute steps. -/
def generateSuggestions (overlap : OverlapResult) (cityA cityB : City)
    (workingHoursA workingHoursB : WorkingHours) : List MeetingSuggestion :=
  if !overlap.hasOverlap then []
  else
    match overlap.overlapInCityA, overlap.overlapInCityB with
    | some a, some b =>
      suggestFrom cityA cityB workingHoursA workingHoursB a.«end» a.start b.start
    | _, _ => []

/-- `MeetingSuggester.findLargestOverlap`: JavaScript `reduce` without an
initial value — fold the tail with the head as accumulator, replacing the
accumulator only on a strictly larger duration. -/
def findLargestOverlap (suggestions : List MeetingSuggestion) : Option MeetingSuggestion :=
  match suggestions with
  | [] => none
  | x :: xs =>
    some (xs.foldl
      (fun largest current =>
        if current.durationMinutes > largest.durationMinutes then current else largest)
      x)

/-- Badness rank of a quality per the ordering Perfect < Acceptable <
NotRecommended (worse = higher), used to state the worse-of-the-two
property of `combineQualities`. -/
def qualityRank : MeetingQuality → ℕ
  | MeetingQuality.perfectTime => 0
  | MeetingQuality.acceptableTime => 1
  | MeetingQuality.notRecommended => 2

theorem isValidTimezone_elim {z : Zone} (h : isValidTimezone (some z) = true) :
    z.id ≠ "" ∧ z.recognized = true := by
  simpa [isValidTimezone] using h

theorem tzMissing_of_valid {z : Zone} (h : isValidTimezone (some z) = true) :
    tzMissing (some z) = false := by
  have := (isValidTimezone_elim h).1
  simp [tzMissing, this]

theorem convertToUTC_valid (t : DateTime) {z : Zone}
    (hz : isValidTimezone (some z) = true) :
    convertToUTC t (some z) = Except.ok ((t.setZoneKeepLocal z).toUTC) := by
  simp [convertToUTC, hz]

theorem convertFromUTC_valid (t : DateTime) {z : Zone}
    (hz : isValidTimezone (some z) = true) :
    convertFromUTC t (some z) = Except.ok ((t.toUTC).setZone z) := by
  simp [convertFromUTC, hz]

theorem setZoneKeepLocal_self (ts : Int) (z : Zone) :
    (DateTime.mk ts z).setZoneKeepLocal z = DateTime.mk ts z := by
  simp [DateTime.setZoneKeepLocal]

theorem workingHoursToUTC_valid (h : WorkingHours) (z : Zone) (date : Int)
    (hz : isValidTimezone (some z) = true) :
    workingHoursToUTC h (some z) date =
      Except.ok
        ⟨(((DateTime.mk date z).startOfDay).setHour h.start).toUTC,
         (if h.«end» ≤ h.start
          then (((DateTime.mk date z).startOfDay).setHour h.«end»).plusDays 1
          else ((DateTime.mk date z).startOfDay).setHour h.«end»).toUTC⟩ := by
  unfold workingHoursToUTC
  simp only [bind, Except.bind, pure, Except.pure, convertToUTC_valid _ hz]
  split <;>
    simp [DateTime.setZoneKeepLocal, DateTime.setHour, DateTime.startOfDay, DateTime.plusDays]

theorem calculateIntersection_spec (rangeA rangeB : TimeRange) :
    ∃ s e : DateTime,
      s.ts = max rangeA.start.ts rangeB.start.ts ∧
      e.ts = min rangeA.«end».ts rangeB.«end».ts ∧
      calculateIntersection rangeA rangeB = (if s.ts ≥ e.ts then none else some ⟨s, e⟩) := by
  refine ⟨if rangeA.start.ts > rangeB.start.ts then rangeA.start else rangeB.start,
          if rangeA.«end».ts < rangeB.«end».ts then rangeA.«end» else rangeB.«end»,
          ?_, ?_, rfl⟩
  · split_ifs with h
    · exact (max_eq_left h.le).symm
    · exact (max_eq_right (not_lt.mp h)).symm
  · split_ifs with h
    · exact (min_eq_left h.le).symm
    · exact (min_eq_right (not_lt.mp h)).symm

theorem calculateOverlap_of_valid
    (zA zB : Zone) (nA nB cA cB : String) (hA hB : WorkingHours) (date : Int)
    (fault : Option String)
    (hzA : isValidTimezone (some zA) = true) (hzB : isValidTimezone (some zB) = true)
    (hhA : isValidWorkingHours hA = true) (hhB : isValidWorkingHours hB = true) :
    calculateOverlap ⟨nA, cA, some zA⟩ ⟨nB, cB, some zB⟩ hA hB date fault =
      match overlapTryBlock ⟨nA, cA, some zA⟩ ⟨nB, cB, some zB⟩ hA hB date fault with
      | Except.error e =>
        Except.error (if jsIncludes e "timezone" then e else calcFailedMsg)
      | Except.ok r => Except.ok r := by
  simp [calculateOverlap, tzMissing_of_valid hzA, tzMissing_of_valid hzB, hzA, hzB, hhA, hhB]

theorem overlapTryBlock_valid
    (zA zB : Zone) (nA nB cA cB : String) (hA hB : WorkingHours) (date : Int)
    (hzA : isValidTimezone (some zA) = true) (hzB : isValidTimezone (some zB) = true) :
    ∃ rangeA rangeB : TimeRange,
      workingHoursToUTC hA (some zA) date = Except.ok rangeA ∧
      workingHoursToUTC hB (some zB) date = Except.ok rangeB ∧
      overlapTryBlock ⟨nA, cA, some zA⟩ ⟨nB, cB, some zB⟩ hA hB date none =
        (match calculateIntersection rangeA rangeB with
         | none => Except.ok ⟨false, none, none, none, none⟩
         | some intersection =>
           Except.ok ⟨true, some intersection,
             some ⟨intersection.start.toUTC.setZone zA, intersection.«end».toUTC.setZone zA⟩,
             some ⟨intersection.start.toUTC.setZone zB, intersection.«end».toUTC.setZone zB⟩,
             some (intersection.«end».ts - intersection.start.ts)⟩) := by
  refine ⟨_, _, workingHoursToUTC_valid hA zA date hzA,
          workingHoursToUTC_valid hB zB date hzB, ?_⟩
  simp only [overlapTryBlock, bind, Except.bind,
    workingHoursToUTC_valid _ _ _ hzA, workingHoursToUTC_valid _ _ _ hzB]
  cases hI : calculateIntersection _ _ with
  | none => rfl
  | some intersection =>
    simp only [convertFromUTC_valid _ hzA, convertFromUTC_valid _ hzB,
      bind, Except.bind, pure, Except.pure]

/-- Claim C1: for every pair of valid zones, valid working-hour ranges and
date, `calculateOverlap` converts both ranges and intersects them as
`start = max(rangeA.start, rangeB.start)`, `end = min(rangeA.end, rangeB.end)`;
when `start ≥ end` it returns the no-overlap result with no
absolute/local/duration fields populated, and otherwise it returns an overlap
whose absolute window satisfies `start < end`, whose `durationMinutes` is
positive, and whose `durationMinutes` equals the minute difference
`end − start` exactly (hence within any sub-minute tolerance). -/
theorem calculateOverlap_intersection_correct
    (zA zB : Zone) (nA nB cA cB : String) (hA hB : WorkingHours) (date : Int)
    (hzA : isValidTimezone (some zA) = true) (hzB : isValidTimezone (some zB) = true)
    (hhA : isValidWorkingHours hA = true) (hhB : isValidWorkingHours hB = true) :
    ∃ rangeA rangeB : TimeRange,
      workingHoursToUTC hA (some zA) date = Except.ok rangeA ∧
      workingHoursToUTC hB (some zB) date = Except.ok rangeB ∧
      (max rangeA.start.ts rangeB.start.ts ≥ min rangeA.«end».ts rangeB.«end».ts →
        calculateOverlap ⟨nA, cA, some zA⟩ ⟨nB, cB, some zB⟩ hA hB date none =
          Except.ok ⟨false, none, none, none, none⟩) ∧
      (max rangeA.start.ts rangeB.start.ts < min rangeA.«end».ts rangeB.«end».ts →
        ∃ r : OverlapResult,
          calculateOverlap ⟨nA, cA, some zA⟩ ⟨nB, cB, some zB⟩ hA hB date none =
            Except.ok r ∧
          r.hasOverlap = true ∧
          (∃ iv : TimeRange,
            r.overlapInUTC = some iv ∧
            iv.start.ts = max rangeA.start.ts rangeB.start.ts ∧
            iv.«end».ts = min rangeA.«end».ts rangeB.«end».ts ∧
            iv.start.ts < iv.«end».ts) ∧
          r.overlapInCityA.isSome = true ∧
          r.overlapInCityB.isSome = true ∧
          r.durationMinutes =
            some (min rangeA.«end».ts rangeB.«end».ts -
                  max rangeA.start.ts rangeB.start.ts) ∧
          (∀ d : Int, r.durationMinutes = some d → 0 < d)) := by
  obtain ⟨rangeA, rangeB, wA, wB, hblock⟩ :=
    overlapTryBlock_valid zA zB nA nB cA cB hA hB date hzA hzB
  obtain ⟨s, e, hs, he, hiq⟩ := calculateIntersection_spec rangeA rangeB
  refine ⟨rangeA, rangeB, wA, wB, ?_, ?_⟩
  · intro hcmp
    rw [calculateOverlap_of_valid zA zB nA nB cA cB hA hB date none hzA hzB hhA hhB,
      hblock, hiq, if_pos (by rw [hs, he]; exact hcmp)]
  · intro hcmp
    rw [calculateOverlap_of_valid zA zB nA nB cA cB hA hB date none hzA hzB hhA hhB,
      hblock, hiq, if_neg (by rw [hs, he]; exact not_le.mpr hcmp)]
    refine ⟨_, rfl, rfl, ⟨⟨s, e⟩, rfl, hs, he, by rw [hs, he]; exact hcmp⟩, rfl, rfl,
      by simp only [Option.some.injEq]; rw [hs, he], ?_⟩
    intro d hd
    simp only [Option.some.injEq] at hd
    rw [← hd, hs, he]
    exact sub_pos.mpr hcmp

theorem calculateOverlap_intersection_correct_witness :
    isValidTimezone (some ⟨"UTC", true, fun _ => 0⟩) = true ∧
    isValidTimezone (some ⟨"Etc/GMT-1", true, fun _ => 60⟩) = true ∧
    isValidWorkingHours ⟨9, 18⟩ = true ∧
    (∃ rangeA rangeB : TimeRange,
      workingHoursToUTC ⟨9, 18⟩ (some ⟨"UTC", true, fun _ => 0⟩) 0 = Except.ok rangeA ∧
      workingHoursToUTC ⟨9, 18⟩ (some ⟨"Etc/GMT-1", true, fun _ => 60⟩) 0 = Except.ok rangeB ∧
      (max rangeA.start.ts rangeB.start.ts ≥ min rangeA.«end».ts rangeB.«end».ts →
        calculateOverlap ⟨"New York", "USA", some ⟨"UTC", true, fun _ => 0⟩⟩
            ⟨"London", "UK", some ⟨"Etc/GMT-1", true, fun _ => 60⟩⟩ ⟨9, 18⟩ ⟨9, 18⟩ 0 none =
          Except.ok ⟨false, none, none, none, none⟩) ∧
      (max rangeA.start.ts rangeB.start.ts < min rangeA.«end».ts rangeB.«end».ts →
        ∃ r : OverlapResult,
          calculateOverlap ⟨"New York", "USA", some ⟨"UTC", true, fun _ => 0⟩⟩
              ⟨"London", "UK", some ⟨"Etc/GMT-1", true, fun _ => 60⟩⟩ ⟨9, 18⟩ ⟨9, 18⟩ 0 none =
            Except.ok r ∧
          r.hasOverlap = true ∧
          (∃ iv : TimeRange,
            r.overlapInUTC = some iv ∧
            iv.start.ts = max rangeA.start.ts rangeB.start.ts ∧
            iv.«end».ts = min rangeA.«end».ts rangeB.«end».ts ∧
            iv.start.ts < iv.«end».ts) ∧
          r.overlapInCityA.isSome = true ∧
          r.overlapInCityB.isSome = true ∧
          r.durationMinutes =
            some (min rangeA.«end».ts rangeB.«end».ts -
                  max rangeA.start.ts rangeB.start.ts) ∧
          (∀ d : Int, r.durationMinutes = some d → 0 < d))) :=
  ⟨by decide, by decide, by decide,
   calculateOverlap_intersection_correct ⟨"UTC", true, fun _ => 0⟩
     ⟨"Etc/GMT-1", true, fun _ => 60⟩ "New York" "London" "USA" "UK"
     ⟨9, 18⟩ ⟨9, 18⟩ 0 (by decide) (by decide) (by decide) (by decide)⟩

/-- Counterexample to claim C2 as stated: the validator accepts `end = 24`
and accepts non-integer bounds such as `start = 9.5`, both of which the
claim says are rejected as malformed; a range with `end = 24` flows past
validation into a successful calculation. -/
theorem isValidWorkingHours_claim_counterexample :
    isValidWorkingHours ⟨9, 24⟩ = true ∧
    isValidWorkingHours ⟨19/2, 18⟩ = true ∧
    (calculateOverlap ⟨"New York", "USA", some ⟨"UTC", true, fun _ => 0⟩⟩
        ⟨"London", "UK", some ⟨"Etc/GMT-1", true, fun _ => 60⟩⟩
        ⟨9, 24⟩ ⟨9, 18⟩ 0 none).isOk = true := by
  refine ⟨by decide, by norm_num [isValidWorkingHours], ?_⟩
  decide

/-- Claim C2 amended: `calculateOverlap` raises the invalid-working-hours
error, before any conversion is attempted, for exactly those ranges with
`start ∉ [0,24)`, `end ∉ [0,24]` or `start = end`; bounds need not be
integers and the value `24` is accepted for `end`.  In particular
`hoursA = {start: 9, end: 9}` is rejected with the City-A
invalid-working-hours error before any conversion occurs (for every
possible behaviour of the conversion phase). -/
theorem isValidWorkingHours_amended :
    (∀ hours : WorkingHours,
      isValidWorkingHours hours = true ↔
        (0 ≤ hours.start ∧ hours.start < 24 ∧ 0 ≤ hours.«end» ∧ hours.«end» ≤ 24 ∧
         hours.start ≠ hours.«end»)) ∧
    (∀ (cityA cityB : City) (hB : WorkingHours) (date : Int) (fault : Option String),
      isValidTimezone cityA.timezone = true → isValidTimezone cityB.timezone = true →
      calculateOverlap cityA cityB ⟨9, 9⟩ hB date fault =
        Except.error "Invalid working hours for City A") := by
  constructor
  · intro hours
    simp [isValidWorkingHours, Bool.and_eq_true, decide_eq_true_eq, and_assoc]
  · intro cityA cityB hB date fault hvA hvB
    cases hcA : cityA.timezone with
    | none => rw [hcA] at hvA; simp [isValidTimezone] at hvA
    | some zA =>
      cases hcB : cityB.timezone with
      | none => rw [hcB] at hvB; simp [isValidTimezone] at hvB
      | some zB =>
        rw [hcA] at hvA
        rw [hcB] at hvB
        simp [calculateOverlap, hcA, hcB, tzMissing_of_valid hvA, tzMissing_of_valid hvB,
          hvA, hvB, show isValidWorkingHours ⟨9, 9⟩ = false by decide]

theorem isValidWorkingHours_amended_witness :
    (isValidWorkingHours ⟨9, 18⟩ = true ↔
      (0 ≤ (9 : ℚ) ∧ (9 : ℚ) < 24 ∧ 0 ≤ (18 : ℚ) ∧ (18 : ℚ) ≤ 24 ∧ (9 : ℚ) ≠ 18)) ∧
    isValidTimezone (some ⟨"UTC", true, fun _ => 0⟩) = true ∧
    isValidTimezone (some ⟨"Etc/GMT-1", true, fun _ => 60⟩) = true ∧
    calculateOverlap ⟨"New York", "USA", some ⟨"UTC", true, fun _ => 0⟩⟩
        ⟨"London", "UK", some ⟨"Etc/GMT-1", true, fun _ => 60⟩⟩
        ⟨9, 9⟩ ⟨9, 18⟩ 0 (some "boom") =
      Except.error "Invalid working hours for City A" :=
  ⟨isValidWorkingHours_amended.1 ⟨9, 18⟩, by decide, by decide,
   isValidWorkingHours_amended.2
     ⟨"New York", "USA", some ⟨"UTC", true, fun _ => 0⟩⟩
     ⟨"London", "UK", some ⟨"Etc/GMT-1", true, fun _ => 60⟩⟩
     ⟨9, 18⟩ 0 (some "boom") (by decide) (by decide)⟩

theorem intEdiv_eq_div (a b : ℤ) : a.ediv b = a / b := rfl

theorem workingHoursToUTC_fixedOffset (hours : WorkingHours) (id : String) (c date : Int)
    (hid : id ≠ "") :
    workingHoursToUTC hours (some ⟨id, true, fun _ => c⟩) date =
      Except.ok
        ⟨⟨1440 * ((date + c).ediv 1440) + 60 * jsTrunc hours.start - c, utcZone⟩,
         ⟨1440 * ((date + c).ediv 1440) + 60 * jsTrunc hours.«end» +
            (if hours.«end» ≤ hours.start then 1440 else 0) - c, utcZone⟩⟩ := by
  have hz : isValidTimezone (some ⟨id, true, fun _ => c⟩) = true := by
    simp [isValidTimezone, hid]
  rw [workingHoursToUTC_valid hours _ date hz]
  split <;>
  · simp [DateTime.startOfDay, DateTime.setHour, DateTime.plusDays, DateTime.localTS,
      DateTime.o, fixOffset, DateTime.toUTC, DateTime.setZone,
      intEdiv_eq_div, TimeRange.mk.injEq, DateTime.mk.injEq]
    try omega

/-- Claim C3: for each location the engine anchors the civil endpoints at the
given date's midnight in that location's own zone (`start = midnight +
hours.start`, `end = midnight + hours.end`, each in civil minutes), adding 24
hours to the end anchor when `hours.end ≤ hours.start`; consequently with
`hoursA = {start: 22, end: 6}` and `hoursB = {start: 9, end: 18}` the engine
does not throw, and A's window extends into the next civil day, giving A a
correctly ordered absolute interval (here stated for a fixed-offset zone,
where the civil rendering of the produced instants is exact). -/
theorem workingHoursToUTC_midnight_anchoring
    (zA zB : Zone) (nA nB cA cB : String) (date : Int) (id : String) (c : Int)
    (hzA : isValidTimezone (some zA) = true) (hzB : isValidTimezone (some zB) = true)
    (hid : id ≠ "") :
    (∀ hours : WorkingHours, ∃ range : TimeRange,
      workingHoursToUTC hours (some ⟨id, true, fun _ => c⟩) date = Except.ok range ∧
      range.start.ts + c = 1440 * ((date + c).ediv 1440) + 60 * jsTrunc hours.start ∧
      range.«end».ts + c = 1440 * ((date + c).ediv 1440) + 60 * jsTrunc hours.«end» +
        (if hours.«end» ≤ hours.start then 1440 else 0)) ∧
    (calculateOverlap ⟨nA, cA, some zA⟩ ⟨nB, cB, some zB⟩ ⟨22, 6⟩ ⟨9, 18⟩
        date none).isOk = true ∧
    (∃ rangeA : TimeRange,
      workingHoursToUTC ⟨22, 6⟩ (some ⟨id, true, fun _ => c⟩) date = Except.ok rangeA ∧
      rangeA.start.ts < rangeA.«end».ts ∧
      rangeA.«end».ts - rangeA.start.ts = 480) := by
  refine ⟨?_, ?_, ?_⟩
  · intro hours
    rw [workingHoursToUTC_fixedOffset hours id c date hid]
    exact ⟨_, rfl, by ring, by ring⟩
  · rw [calculateOverlap_of_valid zA zB nA nB cA cB ⟨22, 6⟩ ⟨9, 18⟩ date none hzA hzB
      (by decide) (by decide)]
    obtain ⟨rA, rB, _, _, hblock⟩ :=
      overlapTryBlock_valid zA zB nA nB cA cB ⟨22, 6⟩ ⟨9, 18⟩ date hzA hzB
    rw [hblock]
    cases calculateIntersection rA rB <;> rfl
  · rw [workingHoursToUTC_fixedOffset ⟨22, 6⟩ id c date hid]
    have h22 : jsTrunc 22 = 22 := by decide
    have h6 : jsTrunc 6 = 6 := by decide
    refine ⟨_, rfl, ?_, ?_⟩ <;>
    · simp only [h22, h6, if_pos (by norm_num : (6 : ℚ) ≤ 22)]
      omega

theorem workingHoursToUTC_midnight_anchoring_witness :
    isValidTimezone (some ⟨"America/New_York", true, fun _ => -240⟩) = true ∧
    isValidTimezone (some ⟨"Europe/London", true, fun _ => 60⟩) = true ∧
    "America/New_York" ≠ "" ∧
    ((∀ hours : WorkingHours, ∃ range : TimeRange,
      workingHoursToUTC hours (some ⟨"America/New_York", true, fun _ => -240⟩) 0 =
        Except.ok range ∧
      range.start.ts + -240 = 1440 * ((0 + -240 : ℤ).ediv 1440) + 60 * jsTrunc hours.start ∧
      range.«end».ts + -240 = 1440 * ((0 + -240 : ℤ).ediv 1440) + 60 * jsTrunc hours.«end» +
        (if hours.«end» ≤ hours.start then 1440 else 0)) ∧
    (calculateOverlap
        ⟨"New York", "USA", some ⟨"America/New_York", true, fun _ => -240⟩⟩
        ⟨"London", "UK", some ⟨"Europe/London", true, fun _ => 60⟩⟩ ⟨22, 6⟩ ⟨9, 18⟩
        0 none).isOk = true ∧
    (∃ rangeA : TimeRange,
      workingHoursToUTC ⟨22, 6⟩ (some ⟨"America/New_York", true, fun _ => -240⟩) 0 =
        Except.ok rangeA ∧
      rangeA.start.ts < rangeA.«end».ts ∧
      rangeA.«end».ts - rangeA.start.ts = 480)) :=
  ⟨by decide, by decide, by decide,
   workingHoursToUTC_midnight_anchoring
     ⟨"America/New_York", true, fun _ => -240⟩ ⟨"Europe/London", true, fun _ => 60⟩
     "New York" "London" "USA" "UK" 0 "America/New_York" (-240)
     (by decide) (by decide) (by decide)⟩

theorem suggestFrom_pos (cityA cityB : City) (hA hB : WorkingHours)
    (endA curA curB : DateTime) (h : curA.ts < endA.ts) :
    suggestFrom cityA cityB hA hB endA curA curB =
      ⟨curA, curB,
       combineQualities (categorizeMeetingTime curA hA cityA.timezone)
         (categorizeMeetingTime curB hB cityB.timezone),
       min (endA.ts - curA.ts) 60⟩ ::
      suggestFrom cityA cityB hA hB endA (curA.plusMinutes 30) (curB.plusMinutes 30) := by
  rw [suggestFrom]
  simp [h]

theorem suggestFrom_neg (cityA cityB : City) (hA hB : WorkingHours)
    (endA curA curB : DateTime) (h : ¬ curA.ts < endA.ts) :
    suggestFrom cityA cityB hA hB endA curA curB = [] := by
  rw [suggestFrom]
  simp [h]

theorem suggestFrom_length_iff (cityA cityB : City) (hA hB : WorkingHours)
    (endA : DateTime) :
    ∀ (k : ℕ) (curA curB : DateTime),
      k < (suggestFrom cityA cityB hA hB endA curA curB).length ↔
        curA.ts + 30 * k < endA.ts := by
  intro k
  induction k with
  | zero =>
    intro curA curB
    by_cases h : curA.ts < endA.ts
    · rw [suggestFrom_pos cityA cityB hA hB endA curA curB h]
      simpa using h
    · rw [suggestFrom_neg cityA cityB hA hB endA curA curB h]
      simpa using h
  | succ k ih =>
    intro curA curB
    by_cases h : curA.ts < endA.ts
    · rw [suggestFrom_pos cityA cityB hA hB endA curA curB h]
      simp only [List.length_cons, Nat.succ_lt_succ_iff]
      rw [ih (curA.plusMinutes 30) (curB.plusMinutes 30)]
      simp only [DateTime.plusMinutes]
      push_cast
      omega
    · rw [suggestFrom_neg cityA cityB hA hB endA curA curB h]
      simp only [List.length_nil]
      push_cast
      omega

theorem suggestFrom_get (cityA cityB : City) (hA hB : WorkingHours) (endA : DateTime) :
    ∀ (k : ℕ) (curA curB : DateTime)
      (hk : k < (suggestFrom cityA cityB hA hB endA curA curB).length),
      ((suggestFrom cityA cityB hA hB endA curA curB).get ⟨k, hk⟩).timeInCityA.ts =
        curA.ts + 30 * k ∧
      ((suggestFrom cityA cityB hA hB endA curA curB).get ⟨k, hk⟩).timeInCityB.ts =
        curB.ts + 30 * k ∧
      ((suggestFrom cityA cityB hA hB endA curA curB).get ⟨k, hk⟩).durationMinutes =
        min (endA.ts - (curA.ts + 30 * k)) 60 := by
  intro k
  induction k with
  | zero =>
    intro curA curB hk
    have h : curA.ts < endA.ts := by
      by_contra hcon
      rw [suggestFrom_neg cityA cityB hA hB endA curA curB hcon] at hk
      simp at hk
    revert hk
    rw [suggestFrom_pos cityA cityB hA hB endA curA curB h]
    intro hk
    refine ⟨?_, ?_, ?_⟩ <;> simp
  | succ k ih =>
    intro curA curB hk
    have h : curA.ts < endA.ts := by
      by_contra hcon
      rw [suggestFrom_neg cityA cityB hA hB endA curA curB hcon] at hk
      simp at hk
    revert hk
    rw [suggestFrom_pos cityA cityB hA hB endA curA curB h]
    intro hk
    obtain ⟨h1, h2, h3⟩ := ih (curA.plusMinutes 30) (curB.plusMinutes 30)
      (Nat.lt_of_succ_lt_succ hk)
    simp only [List.get_cons_succ]
    refine ⟨?_, ?_, ?_⟩
    · rw [h1]; simp only [DateTime.plusMinutes]; push_cast; ring
    · rw [h2]; simp only [DateTime.plusMinutes]; push_cast; ring
    · rw [h3]; simp only [DateTime.plusMinutes]; push_cast; ring_nf

/-- Claim C4: `generateSuggestions` returns the empty sequence whenever the
overlap argument has no overlap; otherwise it walks the local-A side of the
overlap window in fixed 30-minute steps starting at `localA.start`, emitting
one suggestion per step while the current instant is before `localA.end`,
with the B-side instant advanced by the same 30-minute step, and each
suggestion's `durationMinutes` equal to the minimum of the minutes remaining
to `localA.end` and 60; a 45-minute overlap yields at least one
suggestion. -/
theorem generateSuggestions_walk
    (overlap : OverlapResult) (cityA cityB : City) (hA hB : WorkingHours) :
    (overlap.hasOverlap = false → generateSuggestions overlap cityA cityB hA hB = []) ∧
    (∀ a b : TimeRange,
      overlap.hasOverlap = true →
      overlap.overlapInCityA = some a →
      overlap.overlapInCityB = some b →
      (∀ k : ℕ,
        k < (generateSuggestions overlap cityA cityB hA hB).length ↔
          a.start.ts + 30 * k < a.«end».ts) ∧
      (∀ (k : ℕ) (hk : k < (generateSuggestions overlap cityA cityB hA hB).length),
        ((generateSuggestions overlap cityA cityB hA hB).get ⟨k, hk⟩).timeInCityA.ts =
          a.start.ts + 30 * k ∧
        ((generateSuggestions overlap cityA cityB hA hB).get ⟨k, hk⟩).timeInCityB.ts =
          b.start.ts + 30 * k ∧
        ((generateSuggestions overlap cityA cityB hA hB).get ⟨k, hk⟩).durationMinutes =
          min (a.«end».ts - (a.start.ts + 30 * k)) 60) ∧
      (a.«end».ts - a.start.ts = 45 →
        1 ≤ (generateSuggestions overlap cityA cityB hA hB).length)) := by
  constructor
  · intro hno
    simp [generateSuggestions, hno]
  · intro a b hyes ha hb
    have hgen : generateSuggestions overlap cityA cityB hA hB =
        suggestFrom cityA cityB hA hB a.«end» a.start b.start := by
      simp [generateSuggestions, hyes, ha, hb]
    rw [hgen]
    refine ⟨fun k => suggestFrom_length_iff cityA cityB hA hB a.«end» k a.start b.start,
            fun k hk => suggestFrom_get cityA cityB hA hB a.«end» k a.start b.start hk,
            ?_⟩
    intro h45
    have := (suggestFrom_length_iff cityA cityB hA hB a.«end» 0 a.start b.start).mpr
      (by omega)
    omega

theorem generateSuggestions_walk_witness :
    (⟨true, some ⟨⟨0, utcZone⟩, ⟨45, utcZone⟩⟩,
       some ⟨⟨0, utcZone⟩, ⟨45, utcZone⟩⟩,
       some ⟨⟨60, utcZone⟩, ⟨105, utcZone⟩⟩, some 45⟩ : OverlapResult).hasOverlap = true ∧
    (∀ k : ℕ,
      k < (generateSuggestions
        ⟨true, some ⟨⟨0, utcZone⟩, ⟨45, utcZone⟩⟩, some ⟨⟨0, utcZone⟩, ⟨45, utcZone⟩⟩,
         some ⟨⟨60, utcZone⟩, ⟨105, utcZone⟩⟩, some 45⟩
        ⟨"A", "X", some utcZone⟩ ⟨"B", "Y", some utcZone⟩ ⟨9, 18⟩ ⟨9, 18⟩).length ↔
        (0 : ℤ) + 30 * k < 45) ∧
    (45 : ℤ) - 0 = 45 ∧
    1 ≤ (generateSuggestions
        ⟨true, some ⟨⟨0, utcZone⟩, ⟨45, utcZone⟩⟩, some ⟨⟨0, utcZone⟩, ⟨45, utcZone⟩⟩,
         some ⟨⟨60, utcZone⟩, ⟨105, utcZone⟩⟩, some 45⟩
        ⟨"A", "X", some utcZone⟩ ⟨"B", "Y", some utcZone⟩ ⟨9, 18⟩ ⟨9, 18⟩).length := by
  have h := (generateSuggestions_walk
    ⟨true, some ⟨⟨0, utcZone⟩, ⟨45, utcZone⟩⟩, some ⟨⟨0, utcZone⟩, ⟨45, utcZone⟩⟩,
     some ⟨⟨60, utcZone⟩, ⟨105, utcZone⟩⟩, some 45⟩
    ⟨"A", "X", some utcZone⟩ ⟨"B", "Y", some utcZone⟩ ⟨9, 18⟩ ⟨9, 18⟩).2
    ⟨⟨0, utcZone⟩, ⟨45, utcZone⟩⟩ ⟨⟨60, utcZone⟩, ⟨105, utcZone⟩⟩ rfl rfl rfl
  exact ⟨rfl, h.1, rfl, h.2.2 rfl⟩

theorem suggestFrom_quality (cityA cityB : City) (hA hB : WorkingHours) (endA : DateTime) :
    ∀ (n : ℕ) (curA curB : DateTime), (endA.ts - curA.ts).toNat ≤ n →
      ∀ s ∈ suggestFrom cityA cityB hA hB endA curA curB,
        s.quality = combineQualities
          (categorizeMeetingTime s.timeInCityA hA cityA.timezone)
          (categorizeMeetingTime s.timeInCityB hB cityB.timezone) := by
  intro n
  induction n with
  | zero =>
    intro curA curB hle s hs
    rw [suggestFrom_neg cityA cityB hA hB endA curA curB (by omega)] at hs
    simp at hs
  | succ n ih =>
    intro curA curB hle s hs
    by_cases h : curA.ts < endA.ts
    · rw [suggestFrom_pos cityA cityB hA hB endA curA curB h] at hs
      rcases List.mem_cons.mp hs with rfl | hs'
      · rfl
      · exact ih (curA.plusMinutes 30) (curB.plusMinutes 30)
          (by simp only [DateTime.plusMinutes]; omega) s hs'
    · rw [suggestFrom_neg cityA cityB hA hB endA curA curB h] at hs
      simp at hs

/-- Claim C9: each generated suggestion's quality is `combine` of the two
per-city categorizations, where `combine` returns the worse of the two per
the ordering Perfect < Acceptable < NotRecommended; `combine` is commutative
and idempotent, and the combined quality is never strictly better than
either input. -/
theorem combineQualities_worse :
    (∀ (overlap : OverlapResult) (cityA cityB : City) (hA hB : WorkingHours),
      ∀ s ∈ generateSuggestions overlap cityA cityB hA hB,
        s.quality = combineQualities
          (categorizeMeetingTime s.timeInCityA hA cityA.timezone)
          (categorizeMeetingTime s.timeInCityB hB cityB.timezone)) ∧
    (∀ qA qB : MeetingQuality,
      (combineQualities qA qB = qA ∨ combineQualities qA qB = qB) ∧
      qualityRank (combineQualities qA qB) = max (qualityRank qA) (qualityRank qB) ∧
      combineQualities qA qB = combineQualities qB qA ∧
      qualityRank qA ≤ qualityRank (combineQualities qA qB) ∧
      qualityRank qB ≤ qualityRank (combineQualities qA qB)) ∧
    (∀ q : MeetingQuality, combineQualities q q = q) := by
  refine ⟨?_, ?_, ?_⟩
  · intro overlap cityA cityB hA hB s hs
    by_cases hov : overlap.hasOverlap = true
    · cases ha : overlap.overlapInCityA with
      | none => simp [generateSuggestions, hov, ha] at hs
      | some a =>
        cases hb : overlap.overlapInCityB with
        | none => simp [generateSuggestions, hov, ha, hb] at hs
        | some b =>
          rw [show generateSuggestions overlap cityA cityB hA hB =
              suggestFrom cityA cityB hA hB a.«end» a.start b.start by
            simp [generateSuggestions, hov, ha, hb]] at hs
          exact suggestFrom_quality cityA cityB hA hB a.«end» _ a.start b.start le_rfl s hs
    · simp [generateSuggestions, hov] at hs
  · intro qA qB
    cases qA <;> cases qB <;> exact ⟨by decide, by decide, by decide, by decide, by decide⟩
  · intro q
    cases q <;> decide

theorem combineQualities_worse_witness :
    ∃ s : MeetingSuggestion,
      s ∈ generateSuggestions
        ⟨true, some ⟨⟨0, utcZone⟩, ⟨45, utcZone⟩⟩, some ⟨⟨0, utcZone⟩, ⟨45, utcZone⟩⟩,
         some ⟨⟨60, utcZone⟩, ⟨105, utcZone⟩⟩, some 45⟩
        ⟨"Paris", "France", some utcZone⟩ ⟨"Berlin", "Germany", some utcZone⟩
        ⟨9, 18⟩ ⟨9, 18⟩ ∧
      s.quality = combineQualities
        (categorizeMeetingTime s.timeInCityA ⟨9, 18⟩ (some utcZone))
        (categorizeMeetingTime s.timeInCityB ⟨9, 18⟩ (some utcZone)) := by
  have hgen : generateSuggestions
      ⟨true, some ⟨⟨0, utcZone⟩, ⟨45, utcZone⟩⟩, some ⟨⟨0, utcZone⟩, ⟨45, utcZone⟩⟩,
       some ⟨⟨60, utcZone⟩, ⟨105, utcZone⟩⟩, some 45⟩
      ⟨"Paris", "France", some utcZone⟩ ⟨"Berlin", "Germany", some utcZone⟩
      ⟨9, 18⟩ ⟨9, 18⟩ =
      suggestFrom ⟨"Paris", "France", some utcZone⟩ ⟨"Berlin", "Germany", some utcZone⟩
        ⟨9, 18⟩ ⟨9, 18⟩ ⟨45, utcZone⟩ ⟨0, utcZone⟩ ⟨60, utcZone⟩ := by
    simp [generateSuggestions]
  rw [suggestFrom_pos _ _ _ _ _ _ _ (by norm_num)] at hgen
  have hmem := hgen ▸ List.mem_cons_self _ _
  exact ⟨_, hmem,
    combineQualities_worse.1 _ ⟨"Paris", "France", some utcZone⟩
      ⟨"Berlin", "Germany", some utcZone⟩ ⟨9, 18⟩ ⟨9, 18⟩ _ hmem⟩

/-- Claim C5: for every instant, working-hour range and recognized zone,
`categorize` renders the instant into the zone's wall clock, computes the
minutes-of-day, and returns NotRecommended iff the minutes-of-day is before
`start*60` or at/after `end*60` (same-day positional model, no midnight
normalization); otherwise, with `p` the fractional position in the window,
it returns Perfect iff `p ∈ [1/3, 2/3)` and Acceptable otherwise — always
exactly one of the three quality values. -/
theorem categorizeMeetingTime_spec (time : DateTime) (hours : WorkingHours) (z : Zone)
    (hz : z.recognized = true) :
    ((categorizeMeetingTime time hours (some z) = MeetingQuality.notRecommended) ↔
      (((time.setZone z).hour * 60 + (time.setZone z).minute : ℚ) < hours.start * 60 ∨
       ((time.setZone z).hour * 60 + (time.setZone z).minute : ℚ) ≥ hours.«end» * 60)) ∧
    (∀ p : ℚ,
      p = ((((time.setZone z).hour * 60 + (time.setZone z).minute : ℚ)) - hours.start * 60) /
            (hours.«end» * 60 - hours.start * 60) →
      ¬ (((time.setZone z).hour * 60 + (time.setZone z).minute : ℚ) < hours.start * 60 ∨
         ((time.setZone z).hour * 60 + (time.setZone z).minute : ℚ) ≥ hours.«end» * 60) →
      ((categorizeMeetingTime time hours (some z) = MeetingQuality.perfectTime ↔
         (p ≥ 1/3 ∧ p < 2/3)) ∧
       (categorizeMeetingTime time hours (some z) = MeetingQuality.acceptableTime ↔
         ¬ (p ≥ 1/3 ∧ p < 2/3)))) ∧
    (categorizeMeetingTime time hours (some z) = MeetingQuality.notRecommended ∨
     categorizeMeetingTime time hours (some z) = MeetingQuality.acceptableTime ∨
     categorizeMeetingTime time hours (some z) = MeetingQuality.perfectTime) := by
  simp only [categorizeMeetingTime, hz, Bool.not_true, Bool.false_eq_true, if_false]
  refine ⟨?_, ?_, ?_⟩
  · by_cases hcond :
      ((time.setZone z).hour * 60 + (time.setZone z).minute : ℚ) < hours.start * 60 ∨
      ((time.setZone z).hour * 60 + (time.setZone z).minute : ℚ) ≥ hours.«end» * 60
    · simp [hcond]
    · simp only [if_neg hcond]
      split_ifs <;> simp [hcond]
  · intro p hp hcond
    rw [if_neg hcond]
    subst hp
    split_ifs with hperf <;> constructor <;> simpa using hperf
  · by_cases hcond :
      ((time.setZone z).hour * 60 + (time.setZone z).minute : ℚ) < hours.start * 60 ∨
      ((time.setZone z).hour * 60 + (time.setZone z).minute : ℚ) ≥ hours.«end» * 60
    · simp [hcond]
    · simp only [if_neg hcond]
      split_ifs <;> simp

theorem categorizeMeetingTime_spec_witness :
    utcZone.recognized = true ∧
    ((categorizeMeetingTime ⟨600, utcZone⟩ ⟨9, 18⟩ (some utcZone) =
        MeetingQuality.notRecommended) ↔
      (((DateTime.mk 600 utcZone).setZone utcZone).hour * 60 +
          ((DateTime.mk 600 utcZone).setZone utcZone).minute : ℚ) < 9 * 60 ∨
      (((DateTime.mk 600 utcZone).setZone utcZone).hour * 60 +
          ((DateTime.mk 600 utcZone).setZone utcZone).minute : ℚ) ≥ 18 * 60) ∧
    (categorizeMeetingTime ⟨600, utcZone⟩ ⟨9, 18⟩ (some utcZone) =
        MeetingQuality.notRecommended ∨
     categorizeMeetingTime ⟨600, utcZone⟩ ⟨9, 18⟩ (some utcZone) =
        MeetingQuality.acceptableTime ∨
     categorizeMeetingTime ⟨600, utcZone⟩ ⟨9, 18⟩ (some utcZone) =
        MeetingQuality.perfectTime) :=
  ⟨rfl,
   (categorizeMeetingTime_spec ⟨600, utcZone⟩ ⟨9, 18⟩ utcZone rfl).1,
   (categorizeMeetingTime_spec ⟨600, utcZone⟩ ⟨9, 18⟩ utcZone rfl).2.2⟩

/-- Claim C10: for every working-hour range with `end ≤ start` (midnight
spanning under the wheel interpretation), every instant and every recognized
zone, `categorize` returns NotRecommended: without midnight normalization
the minutes-of-day is always below `start*60` or at/after `end*60`. -/
theorem categorizeMeetingTime_midnightSpan_notRecommended
    (hours : WorkingHours) (hle : hours.«end» ≤ hours.start)
    (time : DateTime) (z : Zone) (hz : z.recognized = true) :
    categorizeMeetingTime time hours (some z) = MeetingQuality.notRecommended := by
  simp only [categorizeMeetingTime, hz, Bool.not_true, Bool.false_eq_true, if_false]
  rw [if_pos]
  rcases lt_or_ge (((time.setZone z).hour * 60 + (time.setZone z).minute : ℚ))
    (hours.start * 60) with hlt | hge
  · exact Or.inl hlt
  · refine Or.inr (le_trans ?_ hge)
    exact mul_le_mul_of_nonneg_right hle (by norm_num)

theorem categorizeMeetingTime_midnightSpan_notRecommended_witness :
    (6 : ℚ) ≤ 22 ∧ utcZone.recognized = true ∧
    categorizeMeetingTime ⟨0, utcZone⟩ ⟨22, 6⟩ (some utcZone) =
      MeetingQuality.notRecommended :=
  ⟨by norm_num, rfl,
   categorizeMeetingTime_midnightSpan_notRecommended ⟨22, 6⟩ (by norm_num)
     ⟨0, utcZone⟩ utcZone rfl⟩

/-- Claim C7: for every valid zone identifier and absolute instant, rendering
the instant in the zone and running it through `toAbsolute` (`convertToUTC`)
followed by `toZone` (`convertFromUTC`) reproduces the rendered instant
exactly — in particular to the minute. -/
theorem convert_roundTrip (x : DateTime) (z : Zone)
    (hz : isValidTimezone (some z) = true) :
    (convertToUTC (x.setZone z) (some z)).bind
      (fun u => convertFromUTC u (some z)) = Except.ok (x.setZone z) := by
  rw [convertToUTC_valid _ hz]
  have hid : (x.setZone z).setZoneKeepLocal z = x.setZone z := by
    simp [DateTime.setZone, DateTime.setZoneKeepLocal]
  rw [hid]
  simp only [Except.bind]
  rw [convertFromUTC_valid _ hz]
  simp [DateTime.toUTC, DateTime.setZone]

theorem convert_roundTrip_witness :
    isValidTimezone (some ⟨"Asia/Kolkata", true, fun _ => 330⟩) = true ∧
    (convertToUTC ((⟨1000, utcZone⟩ : DateTime).setZone ⟨"Asia/Kolkata", true, fun _ => 330⟩)
        (some ⟨"Asia/Kolkata", true, fun _ => 330⟩)).bind
      (fun u => convertFromUTC u (some ⟨"Asia/Kolkata", true, fun _ => 330⟩)) =
      Except.ok ((⟨1000, utcZone⟩ : DateTime).setZone ⟨"Asia/Kolkata", true, fun _ => 330⟩) :=
  ⟨by decide,
   convert_roundTrip ⟨1000, utcZone⟩ ⟨"Asia/Kolkata", true, fun _ => 330⟩ (by decide)⟩

/-- Counterexample to claim C6 as stated: an error raised during the
conversion phase whose message carries the word "invalid" but not
"timezone" is not passed through verbatim — it is replaced by the generic
calculation-failed message. -/
theorem errorWrapping_claim_counterexample :
    calculateOverlap ⟨"New York", "USA", some ⟨"UTC", true, fun _ => 0⟩⟩
        ⟨"London", "UK", some ⟨"Etc/GMT-1", true, fun _ => 60⟩⟩
        ⟨9, 18⟩ ⟨9, 18⟩ 0 (some "invalid input") =
      Except.error calcFailedMsg ∧
    calcFailedMsg ≠ "invalid input" := by
  constructor
  · rw [calculateOverlap_of_valid ⟨"UTC", true, fun _ => 0⟩ ⟨"Etc/GMT-1", true, fun _ => 60⟩
      "New York" "London" "USA" "UK" ⟨9, 18⟩ ⟨9, 18⟩ 0 (some "invalid input")
      (by decide) (by decide) (by decide) (by decide)]
    have hj : jsIncludes "invalid input" "timezone" = false := by decide
    simp [overlapTryBlock, hj]
  · decide

/-- Claim C6 amended: when a failure occurs during the conversion phase of
`calculateOverlap` (after input validation has passed), an error whose
message contains the substring "timezone" is rethrown verbatim, and every
other error — including one carrying the word "invalid" — is replaced by
the single generic calculation-failed message, a fixed string that leaks no
detail of the original error. -/
theorem errorWrapping_amended
    (zA zB : Zone) (nA nB cA cB : String) (hA hB : WorkingHours) (date : Int)
    (msg : String)
    (hzA : isValidTimezone (some zA) = true) (hzB : isValidTimezone (some zB) = true)
    (hhA : isValidWorkingHours hA = true) (hhB : isValidWorkingHours hB = true) :
    calculateOverlap ⟨nA, cA, some zA⟩ ⟨nB, cB, some zB⟩ hA hB date (some msg) =
      Except.error (if jsIncludes msg "timezone" then msg else calcFailedMsg) := by
  rw [calculateOverlap_of_valid zA zB nA nB cA cB hA hB date (some msg) hzA hzB hhA hhB]
  rfl

theorem errorWrapping_amended_witness :
    isValidTimezone (some ⟨"UTC", true, fun _ => 0⟩) = true ∧
    isValidTimezone (some ⟨"Etc/GMT-1", true, fun _ => 60⟩) = true ∧
    isValidWorkingHours ⟨9, 18⟩ = true ∧
    calculateOverlap ⟨"New York", "USA", some ⟨"UTC", true, fun _ => 0⟩⟩
        ⟨"London", "UK", some ⟨"Etc/GMT-1", true, fun _ => 60⟩⟩
        ⟨9, 18⟩ ⟨9, 18⟩ 0 (some "Failed to convert time to timezone: X") =
      Except.error (if jsIncludes "Failed to convert time to timezone: X" "timezone"
        then "Failed to convert time to timezone: X" else calcFailedMsg) :=
  ⟨by decide, by decide, by decide,
   errorWrapping_amended ⟨"UTC", true, fun _ => 0⟩ ⟨"Etc/GMT-1", true, fun _ => 60⟩
     "New York" "London" "USA" "UK" ⟨9, 18⟩ ⟨9, 18⟩ 0
     "Failed to convert time to timezone: X" (by decide) (by decide) (by decide) (by decide)⟩

theorem foldlLargest_spec (xs : List MeetingSuggestion) :
    ∀ acc : MeetingSuggestion,
      ∃ l1 l2 : List MeetingSuggestion,
        acc :: xs = l1 ++
          (xs.foldl (fun largest current =>
            if current.durationMinutes > largest.durationMinutes then current else largest)
            acc) :: l2 ∧
        (∀ x ∈ l1, x.durationMinutes <
          (xs.foldl (fun largest current =>
            if current.durationMinutes > largest.durationMinutes then current else largest)
            acc).durationMinutes) ∧
        (∀ x ∈ acc :: xs, x.durationMinutes ≤
          (xs.foldl (fun largest current =>
            if current.durationMinutes > largest.durationMinutes then current else largest)
            acc).durationMinutes) := by
  induction xs with
  | nil =>
    intro acc
    refine ⟨[], [], by simp, by simp, by simp⟩
  | cons y ys ih =>
    intro acc
    simp only [List.foldl_cons]
    by_cases hy : y.durationMinutes > acc.durationMinutes
    · rw [if_pos hy]
      obtain ⟨l1, l2, heq, hstrict, hmax⟩ := ih y
      refine ⟨acc :: l1, l2, ?_, ?_, ?_⟩
      · rw [List.cons_append, ← heq]
      · intro x hx
        rcases List.mem_cons.mp hx with rfl | hx'
        · have hy' := hmax y (List.mem_cons_self _ _)
          omega
        · exact hstrict x hx'
      · intro x hx
        rcases List.mem_cons.mp hx with rfl | hx'
        · have hy' := hmax y (List.mem_cons_self _ _)
          omega
        · exact hmax x hx'
    · rw [if_neg hy]
      obtain ⟨l1, l2, heq, hstrict, hmax⟩ := ih acc
      cases l1 with
      | nil =>
        simp only [List.nil_append] at heq
        have hacc := List.head_eq_of_cons_eq heq
        have hys := List.tail_eq_of_cons_eq heq
        refine ⟨[], y :: ys, ?_, by simp, ?_⟩
        · simp [← hacc]
        · intro x hx
          rcases List.mem_cons.mp hx with rfl | hx'
          · rw [← hacc]
          · rcases List.mem_cons.mp hx' with rfl | hx''
            · rw [← hacc]; omega
            · exact hmax x (List.mem_cons_of_mem _ (hys ▸ hx''))
      | cons a l1' =>
        simp only [List.cons_append] at heq
        have ha := List.head_eq_of_cons_eq heq
        have hys := List.tail_eq_of_cons_eq heq
        refine ⟨acc :: y :: l1', l2, ?_, ?_, ?_⟩
        · rw [show acc :: y :: ys = acc :: y :: (l1' ++
            (ys.foldl (fun largest current =>
              if current.durationMinutes > largest.durationMinutes then current else largest)
              acc) :: l2) by rw [← hys]]
          simp
        · have haccr : acc.durationMinutes <
            (ys.foldl (fun largest current =>
              if current.durationMinutes > largest.durationMinutes then current else largest)
              acc).durationMinutes := by
            have := hstrict a (List.mem_cons_self _ _)
            rw [← ha] at this
            exact this
          intro x hx
          rcases List.mem_cons.mp hx with rfl | hx'
          · exact haccr
          · rcases List.mem_cons.mp hx' with rfl | hx''
            · omega
            · exact hstrict x (List.mem_cons_of_mem _ hx'')
        · intro x hx
          rcases List.mem_cons.mp hx with rfl | hx'
          · exact hmax x (List.mem_cons_self _ _)
          · rcases List.mem_cons.mp hx' with rfl | hx''
            · have := hmax acc (List.mem_cons_self _ _)
              omega
            · exact hmax x (List.mem_cons_of_mem _ hx'')


/-- Claim C8: `findLargest` returns none on an empty input sequence; on a
non-empty sequence it returns a member suggestion whose `durationMinutes` no
other member of the same input exceeds, and it is the first occurrence of the
maximal duration (every earlier member has a strictly smaller duration). -/
theorem findLargestOverlap_correct :
    findLargestOverlap [] = none ∧
    (∀ l : List MeetingSuggestion, l ≠ [] →
      ∃ r : MeetingSuggestion,
        findLargestOverlap l = some r ∧
        r ∈ l ∧
        (∀ x ∈ l, ¬ r.durationMinutes < x.durationMinutes) ∧
        (∃ l1 l2 : List MeetingSuggestion,
          l = l1 ++ r :: l2 ∧ ∀ x ∈ l1, x.durationMinutes < r.durationMinutes)) := by
  constructor
  · rfl
  · intro l hne
    cases l with
    | nil => exact absurd rfl hne
    | cons x xs =>
      obtain ⟨l1, l2, heq, hstrict, hmax⟩ := foldlLargest_spec xs x
      refine ⟨_, rfl, ?_, ?_, l1, l2, heq, hstrict⟩
      · rw [heq]
        exact List.mem_append_right _ (List.mem_cons_self _ _)
      · intro y hy
        have := hmax y hy
        omega

theorem findLargestOverlap_correct_witness :
    ([⟨⟨0, utcZone⟩, ⟨0, utcZone⟩, MeetingQuality.perfectTime, 30⟩,
      ⟨⟨30, utcZone⟩, ⟨30, utcZone⟩, MeetingQuality.acceptableTime, 60⟩] :
        List MeetingSuggestion) ≠ [] ∧
    (∃ r : MeetingSuggestion,
      findLargestOverlap
        [⟨⟨0, utcZone⟩, ⟨0, utcZone⟩, MeetingQuality.perfectTime, 30⟩,
         ⟨⟨30, utcZone⟩, ⟨30, utcZone⟩, MeetingQuality.acceptableTime, 60⟩] = some r ∧
      r ∈ ([⟨⟨0, utcZone⟩, ⟨0, utcZone⟩, MeetingQuality.perfectTime, 30⟩,
           ⟨⟨30, utcZone⟩, ⟨30, utcZone⟩, MeetingQuality.acceptableTime, 60⟩] :
             List MeetingSuggestion) ∧
      (∀ x ∈ ([⟨⟨0, utcZone⟩, ⟨0, utcZone⟩, MeetingQuality.perfectTime, 30⟩,
              ⟨⟨30, utcZone⟩, ⟨30, utcZone⟩, MeetingQuality.acceptableTime, 60⟩] :
                List MeetingSuggestion),
        ¬ r.durationMinutes < x.durationMinutes) ∧
      (∃ l1 l2 : List MeetingSuggestion,
        ([⟨⟨0, utcZone⟩, ⟨0, utcZone⟩, MeetingQuality.perfectTime, 30⟩,
         ⟨⟨30, utcZone⟩, ⟨30, utcZone⟩, MeetingQuality.acceptableTime, 60⟩] :
           List MeetingSuggestion) =
          l1 ++ r :: l2 ∧
        ∀ x ∈ l1, x.durationMinutes < r.durationMinutes)) :=
  ⟨by simp,
   findLargestOverlap_correct.2
     [⟨⟨0, utcZone⟩, ⟨0, utcZone⟩, MeetingQuality.perfectTime, 30⟩,
      ⟨⟨30, utcZone⟩, ⟨30, utcZone⟩, MeetingQuality.acceptableTime, 60⟩] (by simp)⟩
